import Mathlib

/-!
# Verification of the Transcript-Generator orchestration core

A shallow embedding in Lean 4 of the job-orchestration core of the
Transcript-Generator repository: the unit planner (`comboGenerator.js`,
`generateCombos`), the job state store (`jobManager.js`, class `JobManager`),
the retry-with-backoff helper, the series-content splitter and the cost
tracking of `server.js`, and the pricing module (`pricing.js`).

JavaScript numbers are modelled as `Nat`/`Int`/`ℚ` where the code only ever
sees integral or exact-decimal values; where division by zero can produce
`Infinity`/`NaN` (the `getJobStats` estimate) we use an explicit `JsNum`
algebra with the IEEE special values. Fallible code is modelled with
`Except`/`Option`; in-place mutation of the job map is modelled by returning
the (possibly updated) map alongside the result, so a thrown error returns
the map unchanged, exactly as a JS `throw` before any mutation does.
-/

namespace TranscriptGen

/-! ## Unit planner (`comboGenerator.js`, `generateCombos`)

`generateCombos(transcriptCount, apiKey)` asks an upstream model for
`totalUniqueCombos` coach/client combinations, validates the parsed JSON
array (length, series count, single count), and expands it into the list of
per-transcript "processed combos".  We embed everything from the parsed
array onward: the prompt construction and the network call only produce the
`List RawCombo` input. -/

/-- One parsed combination as returned by the metadata collaborator.
Fields `ctype` and `seriesIndicator` model the JS `type` and
`seriesIndicator` properties; `none` models an absent property. -/
structure RawCombo where
  coach : String
  client : String
  location : String
  niche : String
  ctype : Option String
  seriesIndicator : Option String
deriving DecidableEq, Repr

/-- One expanded generation unit (element of `processedCombos`). -/
structure ProcessedCombo where
  coach : String
  client : String
  location : String
  niche : String
  isSeriesEpisode : Bool
  seriesId : Option Nat
  episodeNumber : Option Nat
  totalEpisodes : Option Nat
deriving DecidableEq, Repr

/-- The test `combo.type === 'series' || combo.seriesIndicator === 'series'`,
used both by the validation filter and by the expansion branch. -/
def isSeriesTagged (c : RawCombo) : Bool :=
  c.ctype == some "series" || c.seriesIndicator == some "series"

/-- The test `combo.type === 'single' || combo.seriesIndicator === 'single'`. -/
def isSingleTagged (c : RawCombo) : Bool :=
  c.ctype == some "single" || c.seriesIndicator == some "single"

/-- The processed combo pushed for episode `ep` of the series combo `c`
with series identifier `sIdx` (comboGenerator.js, series branch). -/
def seriesEpisode (c : RawCombo) (sIdx ep : Nat) : ProcessedCombo :=
  { coach := c.coach, client := c.client, location := c.location,
    niche := c.niche, isSeriesEpisode := true, seriesId := some sIdx,
    episodeNumber := some ep, totalEpisodes := some 4 }

/-- The four episodes pushed for one series combo (`for episode = 1..4`). -/
def seriesBlock (c : RawCombo) (sIdx : Nat) : List ProcessedCombo :=
  [seriesEpisode c sIdx 1, seriesEpisode c sIdx 2,
   seriesEpisode c sIdx 3, seriesEpisode c sIdx 4]

/-- The processed combo pushed for a single combo (comboGenerator.js,
single branch). -/
def singleOf (c : RawCombo) : ProcessedCombo :=
  { coach := c.coach, client := c.client, location := c.location,
    niche := c.niche, isSeriesEpisode := false, seriesId := none,
    episodeNumber := none, totalEpisodes := none }

/-- The expansion loop of `generateCombos` (`for i = 0..combos.length`),
threading the running `seriesComboIndex` counter `sIdx`.  An
unrecognized combo throws `Unknown type for combo i`. -/
def expandCombos : List RawCombo → Nat → Except String (List ProcessedCombo)
  | [], _ => .ok []
  | c :: rest, sIdx =>
    if isSeriesTagged c then
      match expandCombos rest (sIdx + 1) with
      | .ok tail => .ok (seriesBlock c sIdx ++ tail)
      | .error e => .error e
    else if isSingleTagged c then
      match expandCombos rest sIdx with
      | .ok tail => .ok (singleOf c :: tail)
      | .error e => .error e
    else .error "Unknown type for combo"

/-- `generateCombos` from the parsed response array onward: the partition
arithmetic, the three strict validation checks, and the expansion. -/
def generateCombos (transcriptCount : Nat) (combos : List RawCombo) :
    Except String (List ProcessedCombo) :=
  let numberOfSeries := transcriptCount / 10
  let transcripsInSeries := numberOfSeries * 4
  let remainingTranscripts := transcriptCount - transcripsInSeries
  let totalUniqueCombos := numberOfSeries + remainingTranscripts
  if combos.length ≠ totalUniqueCombos then
    .error "Expected combos count mismatch"
  else if (combos.filter isSeriesTagged).length ≠ numberOfSeries then
    .error "Expected series combos mismatch"
  else if (combos.filter isSingleTagged).length ≠ remainingTranscripts then
    .error "Expected single combos mismatch"
  else expandCombos combos 0

/-- Number of series-tagged combos strictly before position `i`; this is
the value of the `seriesComboIndex` counter when the loop reaches `i`. -/
def seriesBefore (cs : List RawCombo) (i : Nat) : Nat :=
  ((cs.take i).filter isSeriesTagged).length

/-- A placeholder combo, only used as the out-of-range default of `List.getD`
in statements that index the combo list. -/
def defaultRawCombo : RawCombo :=
  { coach := "", client := "", location := "", niche := "",
    ctype := none, seriesIndicator := none }

/-- The block of processed combos contributed by the combo at position `i`
when the `seriesComboIndex` counter started at `k`: a series-tagged combo
contributes its four episodes (in episode order, sharing the series
identifier `k + seriesBefore cs i`), any other combo its single unit. -/
def blockAt (cs : List RawCombo) (k : Nat) (i : Nat) : List ProcessedCombo :=
  let c := cs.getD i defaultRawCombo
  if isSeriesTagged c then seriesBlock c (k + seriesBefore cs i)
  else [singleOf c]

theorem seriesBefore_cons_of_tag (c : RawCombo) (cs : List RawCombo) (i : Nat)
    (h : isSeriesTagged c = true) :
    seriesBefore (c :: cs) (i + 1) = 1 + seriesBefore cs i := by
  simp only [seriesBefore, List.take_succ_cons, List.filter_cons, h]
  simp [Nat.add_comm]

theorem seriesBefore_cons_of_not (c : RawCombo) (cs : List RawCombo) (i : Nat)
    (h : ¬ isSeriesTagged c = true) :
    seriesBefore (c :: cs) (i + 1) = seriesBefore cs i := by
  simp [seriesBefore, List.take_succ_cons, List.filter_cons, h]

theorem blockAt_cons_succ_tag (c : RawCombo) (rest : List RawCombo) (k i : Nat)
    (h : isSeriesTagged c = true) :
    blockAt (c :: rest) k (i + 1) = blockAt rest (k + 1) i := by
  simp only [blockAt, List.getD_cons_succ, seriesBefore_cons_of_tag c rest i h]
  have : k + (1 + seriesBefore rest i) = k + 1 + seriesBefore rest i := by omega
  rw [this]

theorem blockAt_cons_succ_not (c : RawCombo) (rest : List RawCombo) (k i : Nat)
    (h : ¬ isSeriesTagged c = true) :
    blockAt (c :: rest) k (i + 1) = blockAt rest k i := by
  simp only [blockAt, List.getD_cons_succ, seriesBefore_cons_of_not c rest i h]

theorem expand_ok_blocks (cs : List RawCombo) :
    ∀ k us, expandCombos cs k = .ok us →
      us = ((List.range cs.length).map (blockAt cs k)).flatten := by
  induction cs with
  | nil =>
    intro k us h
    simp only [expandCombos] at h
    injection h with h
    simp [← h]
  | cons c rest ih =>
    intro k us h
    simp only [expandCombos] at h
    by_cases htag : isSeriesTagged c
    · rw [if_pos htag] at h
      cases hrec : expandCombos rest (k + 1) with
      | error e => rw [hrec] at h; exact absurd h (by simp)
      | ok tail =>
        rw [hrec] at h
        injection h with h
        have htail := ih (k + 1) tail hrec
        have hmap : (List.range (c :: rest).length).map (blockAt (c :: rest) k)
            = seriesBlock c k
                :: (List.range rest.length).map (blockAt rest (k + 1)) := by
          rw [List.length_cons, List.range_succ_eq_map, List.map_cons, List.map_map]
          congr 1
          · simp [blockAt, seriesBefore, htag]
          · refine List.map_congr_left ?_
            intro i _
            exact blockAt_cons_succ_tag c rest k i htag
        rw [hmap, List.flatten_cons, ← htail, h]
    · rw [if_neg htag] at h
      by_cases hsing : isSingleTagged c
      · rw [if_pos hsing] at h
        cases hrec : expandCombos rest k with
        | error e => rw [hrec] at h; exact absurd h (by simp)
        | ok tail =>
          rw [hrec] at h
          injection h with h
          have htail := ih k tail hrec
          have hmap : (List.range (c :: rest).length).map (blockAt (c :: rest) k)
              = [singleOf c]
                  :: (List.range rest.length).map (blockAt rest k) := by
            rw [List.length_cons, List.range_succ_eq_map, List.map_cons, List.map_map]
            congr 1
            · simp [blockAt, seriesBefore, htag]
            · refine List.map_congr_left ?_
              intro i _
              exact blockAt_cons_succ_not c rest k i htag
          rw [hmap, List.flatten_cons, ← htail, ← h]
          simp
      · rw [if_neg hsing] at h
        exact absurd h (by simp)

theorem expand_ok_counts (cs : List RawCombo) :
    ∀ k us, expandCombos cs k = .ok us →
      us.length = 4 * (cs.filter isSeriesTagged).length
          + (cs.length - (cs.filter isSeriesTagged).length)
      ∧ (us.filter (fun u => u.isSeriesEpisode)).length
          = 4 * (cs.filter isSeriesTagged).length
      ∧ (us.filter (fun u => !u.isSeriesEpisode)).length
          = cs.length - (cs.filter isSeriesTagged).length := by
  induction cs with
  | nil =>
    intro k us h
    simp only [expandCombos] at h
    injection h with h
    subst h
    simp
  | cons c rest ih =>
    intro k us h
    have hle : (rest.filter isSeriesTagged).length ≤ rest.length :=
      List.length_filter_le _ _
    simp only [expandCombos] at h
    by_cases htag : isSeriesTagged c
    · rw [if_pos htag] at h
      cases hrec : expandCombos rest (k + 1) with
      | error e => rw [hrec] at h; exact absurd h (by simp)
      | ok tail =>
        rw [hrec] at h
        injection h with h
        subst h
        obtain ⟨h1, h2, h3⟩ := ih (k + 1) tail hrec
        have hflen : ((c :: rest).filter isSeriesTagged).length
            = (rest.filter isSeriesTagged).length + 1 := by
          simp [List.filter_cons, htag]
        have h4 : (seriesBlock c k).length = 4 := rfl
        have e1 : (seriesBlock c k).filter (fun u => u.isSeriesEpisode)
            = seriesBlock c k := rfl
        have e2 : (seriesBlock c k).filter (fun u => !u.isSeriesEpisode)
            = [] := rfl
        have hblk : (seriesBlock c k ++ tail).length = 4 + tail.length := by
          rw [List.length_append, h4]
        have hfe : ((seriesBlock c k ++ tail).filter
              (fun u => u.isSeriesEpisode)).length
            = 4 + (tail.filter (fun u => u.isSeriesEpisode)).length := by
          rw [List.filter_append, List.length_append, e1, h4]
        have hfs : ((seriesBlock c k ++ tail).filter
              (fun u => !u.isSeriesEpisode)).length
            = (tail.filter (fun u => !u.isSeriesEpisode)).length := by
          rw [List.filter_append, List.length_append, e2]
          simp
        refine ⟨?_, ?_, ?_⟩
        · rw [hblk, hflen, List.length_cons]; omega
        · rw [hfe, hflen, h2]; omega
        · rw [hfs, hflen, List.length_cons, h3]; omega
    · rw [if_neg htag] at h
      by_cases hsing : isSingleTagged c
      · rw [if_pos hsing] at h
        cases hrec : expandCombos rest k with
        | error e => rw [hrec] at h; exact absurd h (by simp)
        | ok tail =>
          rw [hrec] at h
          injection h with h
          subst h
          obtain ⟨h1, h2, h3⟩ := ih k tail hrec
          have hflen : ((c :: rest).filter isSeriesTagged).length
              = (rest.filter isSeriesTagged).length := by
            simp [List.filter_cons, htag]
          have hfe : ((singleOf c :: tail).filter
                (fun u => u.isSeriesEpisode)).length
              = (tail.filter (fun u => u.isSeriesEpisode)).length := by
            simp [List.filter_cons, singleOf]
          have hfs : ((singleOf c :: tail).filter
                (fun u => !u.isSeriesEpisode)).length
              = (tail.filter (fun u => !u.isSeriesEpisode)).length + 1 := by
            simp [List.filter_cons, singleOf]
          refine ⟨?_, ?_, ?_⟩
          · rw [List.length_cons, hflen, List.length_cons]; omega
          · rw [hfe, hflen, h2]
          · rw [hfs, hflen, List.length_cons, h3]; omega
      · rw [if_neg hsing] at h
        exact absurd h (by simp)

/-- Facts recorded by the three validation checks of `generateCombos`,
together with the successful expansion, whenever the call returns. -/
theorem generateCombos_ok_inv (n : Nat) (cs : List RawCombo)
    (us : List ProcessedCombo) (h : generateCombos n cs = .ok us) :
    cs.length = n / 10 + (n - n / 10 * 4)
    ∧ (cs.filter isSeriesTagged).length = n / 10
    ∧ (cs.filter isSingleTagged).length = n - n / 10 * 4
    ∧ expandCombos cs 0 = .ok us := by
  unfold generateCombos at h
  by_cases h1 : cs.length = n / 10 + (n - n / 10 * 4)
  · rw [if_neg (by omega)] at h
    by_cases h2 : (cs.filter isSeriesTagged).length = n / 10
    · rw [if_neg (by omega)] at h
      by_cases h3 : (cs.filter isSingleTagged).length = n - n / 10 * 4
      · rw [if_neg (by omega)] at h
        exact ⟨h1, h2, h3, h⟩
      · rw [if_pos (by omega)] at h
        exact absurd h (by simp)
    · rw [if_pos (by omega)] at h
      exact absurd h (by simp)
  · rw [if_pos (by omega)] at h
    exact absurd h (by simp)

/-- C1: for every `totalCount ≥ 1` and every metadata response the planner
accepts, `generateCombos` returns exactly `totalCount` expanded units:
`totalCount / 10` series combos, each contributing the four-unit block
`seriesBlock c s` (episodes 1, 2, 3, 4 in order, sharing the series
identifier `s`, which counts the series combos before it), and
`totalCount - (totalCount / 10) * 4` single units, concatenated in input
combination order (the `blockAt`/`flatten` decomposition). -/
theorem generateCombos_plan (n : Nat) (cs : List RawCombo)
    (us : List ProcessedCombo) (_hn : 1 ≤ n)
    (h : generateCombos n cs = .ok us) :
    us.length = n
    ∧ (us.filter (fun u => !u.isSeriesEpisode)).length = n - n / 10 * 4
    ∧ (us.filter (fun u => u.isSeriesEpisode)).length = 4 * (n / 10)
    ∧ (cs.filter isSeriesTagged).length = n / 10
    ∧ us = ((List.range cs.length).map (blockAt cs 0)).flatten := by
  obtain ⟨hlen, hser, hsin, hexp⟩ := generateCombos_ok_inv n cs us h
  obtain ⟨c1, c2, c3⟩ := expand_ok_counts cs 0 us hexp
  have hmul : n / 10 * 10 ≤ n := Nat.div_mul_le_self n 10
  refine ⟨?_, ?_, ?_, hser, expand_ok_blocks cs 0 us hexp⟩
  · rw [c1, hser, hlen]; omega
  · rw [c3, hser, hlen]; omega
  · rw [c2, hser]

/-- A fixed single-tagged raw combo used in concrete scenarios. -/
def demoSingle : RawCombo :=
  { coach := "Priya Raman", client := "Jordan Lee", location := "Austin, TX",
    niche := "first-time buyers", ctype := some "single",
    seriesIndicator := none }

/-- A fixed series-tagged raw combo used in concrete scenarios. -/
def demoSeries : RawCombo :=
  { coach := "Marcus Cole", client := "Dana Fox", location := "Denver, CO",
    niche := "investment properties", ctype := some "series",
    seriesIndicator := none }

/-- Scenario A input: `totalCount = 10` needs 1 series combo + 6 singles. -/
def demoCombos10 : List RawCombo :=
  demoSeries :: List.replicate 6 demoSingle

/-- The plan the code produces for `demoCombos10`. -/
def demoUnits10 : List ProcessedCombo :=
  (generateCombos 10 demoCombos10).toOption.getD []

theorem generateCombos_plan_witness :
    (1 ≤ 10)
    ∧ generateCombos 10 demoCombos10 = Except.ok demoUnits10
    ∧ demoUnits10.length = 10
    ∧ (demoUnits10.filter (fun u => !u.isSeriesEpisode)).length = 6 := by
  have hok : generateCombos 10 demoCombos10 = Except.ok demoUnits10 := by rfl
  have hp := generateCombos_plan 10 demoCombos10 demoUnits10 (by decide) hok
  exact ⟨by decide, hok, hp.1, hp.2.1⟩

/-- Scenario B input: `totalCount = 23` gives `numberOfSeries = 2`,
`remainingTranscripts = 23 - 8 = 15`, hence 17 unique combos. -/
def demoCombos23 : List RawCombo :=
  List.replicate 2 demoSeries ++ List.replicate 15 demoSingle

/-- The plan the code produces for `demoCombos23`. -/
def demoUnits23 : List ProcessedCombo :=
  (generateCombos 23 demoCombos23).toOption.getD []

/-- C2 counterexample: for `totalCount = 23` the code validates a response of
2 series + 15 single combos and expands it to 23 units — 8 series episodes
and 15 singles — not the claimed 2 series + 3 singles = 11 units. -/
theorem generateCombos_23_counterexample :
    generateCombos 23 demoCombos23 = Except.ok demoUnits23
    ∧ demoUnits23.length = 23
    ∧ ¬ demoUnits23.length = 11
    ∧ (demoUnits23.filter (fun u => u.isSeriesEpisode)).length = 8
    ∧ (demoUnits23.filter (fun u => !u.isSeriesEpisode)).length = 15
    ∧ ¬ (demoUnits23.filter (fun u => !u.isSeriesEpisode)).length = 3 := by
  refine ⟨rfl, by decide, by decide, by decide, by decide, by decide⟩

/-- C2 (amended): for `totalCount = 23`, any plan the code accepts consists
of 2 series (8 episodes) plus 15 singles, i.e. 23 units in total. -/
theorem generateCombos_23_plan (cs : List RawCombo)
    (us : List ProcessedCombo) (h : generateCombos 23 cs = .ok us) :
    us.length = 23
    ∧ (us.filter (fun u => u.isSeriesEpisode)).length = 8
    ∧ (us.filter (fun u => !u.isSeriesEpisode)).length = 15
    ∧ (cs.filter isSeriesTagged).length = 2 := by
  obtain ⟨hlen, hser, hsin, hexp⟩ := generateCombos_ok_inv 23 cs us h
  obtain ⟨c1, c2, c3⟩ := expand_ok_counts cs 0 us hexp
  refine ⟨?_, ?_, ?_, hser⟩
  · rw [c1, hser, hlen]
  · rw [c2, hser]
  · rw [c3, hser, hlen]

theorem generateCombos_23_plan_witness :
    generateCombos 23 demoCombos23 = Except.ok demoUnits23
    ∧ demoUnits23.length = 23 := by
  have hok : generateCombos 23 demoCombos23 = Except.ok demoUnits23 := by rfl
  exact ⟨hok, (generateCombos_23_plan demoCombos23 demoUnits23 hok).1⟩

/-! ## Job state store (`jobManager.js`, class `JobManager`)

The `JobManager` keeps a `Map` of jobs keyed by job id and mutates the job
records in place; `saveJobState` mirrors the record to disk and does not
change it.  We model the map as `String → Option Job` and each operation as
a function returning the result (or thrown error) together with the
possibly-updated map: a JS `throw` happens before any mutation, so in the
error case the returned map is the input map unchanged.  `Date.now()` is an
explicit `now` argument. -/

/-- The `state` field: `'running' | 'paused' | 'cancelled' | 'completed'`. -/
inductive JobState where
  | running
  | paused
  | cancelled
  | completed
deriving DecidableEq, Repr

/-- A `new AbortController()` is modelled by a fresh generation number with
a clear `aborted` flag; `abort()` sets the flag. -/
structure AbortController where
  generation : Nat
  aborted : Bool
deriving DecidableEq, Repr

/-- One entry of `completedTranscripts`. -/
structure CompletedTranscript where
  index : Int
  fileName : String
  completedAt : String
deriving DecidableEq, Repr

/-- The job record built by `createJob`. -/
structure Job where
  id : String
  state : JobState
  startTime : Int
  transcriptCount : Int
  combos : List ProcessedCombo
  completedTranscripts : List CompletedTranscript
  inProgressIndex : Int
  pausedAt : Option Int
  cancelledAt : Option Int
  completedAt : Option Int
  abortController : AbortController
deriving DecidableEq, Repr

/-- The in-memory `this.jobs` map. -/
def JobMap : Type := String → Option Job

/-- The empty map (a fresh `JobManager`). -/
def emptyJobs : JobMap := fun _ => none

/-- `this.jobs.set(jobId, job)`. -/
def setJob (m : JobMap) (jobId : String) (job : Job) : JobMap :=
  fun k => if k = jobId then some job else m k

/-- Errors thrown by the job manager: `Job ${jobId} not found`, or a
`Cannot <op> job in state: <state>` invalid-transition error. -/
inductive JobError where
  | notFound (jobId : String)
  | invalidTransition (op : String) (state : JobState)
deriving DecidableEq, Repr

/-- `createJob(jobId, transcriptCount, combos)`: builds the fresh record and
unconditionally stores it under `jobId` (there is no existence check). -/
def createJob (m : JobMap) (jobId : String) (transcriptCount : Int)
    (combos : List ProcessedCombo) (now : Int) : Job × JobMap :=
  let job : Job :=
    { id := jobId, state := .running, startTime := now,
      transcriptCount := transcriptCount, combos := combos,
      completedTranscripts := [], inProgressIndex := 0,
      pausedAt := none, cancelledAt := none, completedAt := none,
      abortController := { generation := 0, aborted := false } }
  (job, setJob m jobId job)

/-- `pauseJob(jobId)`: only valid from `running`. -/
def pauseJob (m : JobMap) (jobId : String) (now : Int) :
    Except JobError Job × JobMap :=
  match m jobId with
  | none => (.error (.notFound jobId), m)
  | some job =>
    if job.state ≠ .running then
      (.error (.invalidTransition "pause" job.state), m)
    else
      let j := { job with
                 state := .paused
                 pausedAt := some now }
      (.ok j, setJob m jobId j)

/-- `resumeJob(jobId)`: only valid from `paused`; installs a fresh
`AbortController`. -/
def resumeJob (m : JobMap) (jobId : String) (_now : Int) :
    Except JobError Job × JobMap :=
  match m jobId with
  | none => (.error (.notFound jobId), m)
  | some job =>
    if job.state ≠ .paused then
      (.error (.invalidTransition "resume" job.state), m)
    else
      let j := { job with
                 state := .running
                 pausedAt := none
                 abortController :=
                   { generation := job.abortController.generation + 1
                     aborted := false } }
      (.ok j, setJob m jobId j)

/-- `cancelJob(jobId)`: no state check at all — any existing job, whatever
its state, is marked `cancelled`, time-stamped, and its controller
aborted. -/
def cancelJob (m : JobMap) (jobId : String) (now : Int) :
    Except JobError Job × JobMap :=
  match m jobId with
  | none => (.error (.notFound jobId), m)
  | some job =>
    let j := { job with
               state := .cancelled
               cancelledAt := some now
               abortController :=
                 { job.abortController with aborted := true } }
    (.ok j, setJob m jobId j)

/-- `completeJob(jobId)`: marks the job `completed` (no state check). -/
def completeJob (m : JobMap) (jobId : String) (now : Int) :
    Except JobError Job × JobMap :=
  match m jobId with
  | none => (.error (.notFound jobId), m)
  | some job =>
    let j := { job with
               state := .completed
               completedAt := some now }
    (.ok j, setJob m jobId j)

/-- `updateProgress(jobId, transcriptIndex, fileName)`: appends a completed
record and moves `inProgressIndex`. -/
def updateProgress (m : JobMap) (jobId : String) (transcriptIndex : Int)
    (fileName : String) (nowIso : String) : Except JobError Job × JobMap :=
  match m jobId with
  | none => (.error (.notFound jobId), m)
  | some job =>
    let j := { job with
               inProgressIndex := transcriptIndex
               completedTranscripts := job.completedTranscripts ++
                 [{ index := transcriptIndex, fileName := fileName,
                    completedAt := nowIso }] }
    (.ok j, setJob m jobId j)

/-! ### JavaScript number semantics for `getJobStats`

`elapsedTime / completedCount` is a JS float division: with
`completedCount == 0` it produces `Infinity`, `-Infinity` or `NaN`, and
`Math.round` preserves those.  `JsNum` is the exact-rational carrier with
the three special values. -/

/-- A JavaScript number: an exact finite value or one of the IEEE special
values (we only need values that arise from integral inputs, so the finite
case is an exact rational). -/
inductive JsNum where
  | num (q : ℚ)
  | posInf
  | negInf
  | nan
deriving DecidableEq, Repr

/-- JS `/` on the cases that can arise here. -/
def JsNum.div : JsNum → JsNum → JsNum
  | .num a, .num b =>
    if b = 0 then (if a = 0 then .nan else if 0 < a then .posInf else .negInf)
    else .num (a / b)
  | .posInf, .num b => if 0 ≤ b then .posInf else .negInf
  | .negInf, .num b => if 0 ≤ b then .negInf else .posInf
  | .num _, .posInf => .num 0
  | .num _, .negInf => .num 0
  | _, _ => .nan

/-- JS `*`. -/
def JsNum.mul : JsNum → JsNum → JsNum
  | .num a, .num b => .num (a * b)
  | .num a, .posInf => if a = 0 then .nan else if 0 < a then .posInf else .negInf
  | .posInf, .num b => if b = 0 then .nan else if 0 < b then .posInf else .negInf
  | .num a, .negInf => if a = 0 then .nan else if 0 < a then .negInf else .posInf
  | .negInf, .num b => if b = 0 then .nan else if 0 < b then .negInf else .posInf
  | .posInf, .posInf => .posInf
  | .posInf, .negInf => .negInf
  | .negInf, .posInf => .negInf
  | .negInf, .negInf => .posInf
  | _, _ => .nan

/-- JS `Math.round`: `⌊x + 1/2⌋` on finite values, identity on the special
values. -/
def JsNum.round : JsNum → JsNum
  | .num q => .num (⌊q + 1/2⌋ : ℤ)
  | x => x

/-- `Number.isFinite`. -/
def JsNum.isFinite : JsNum → Bool
  | .num _ => true
  | _ => false

/-- The snapshot returned by `getJobStats`. -/
structure JobStats where
  id : String
  state : JobState
  completedCount : Nat
  totalCount : Int
  pendingCount : Int
  percentComplete : JsNum
  elapsedTime : Int
  estimatedTimeRemaining : JsNum
  startTime : Int
  pausedAt : Option Int
  cancelledAt : Option Int
  completedAt : Option Int
deriving DecidableEq, Repr

/-- `getJobStats(jobId)`: derived counts and the remaining-time estimate;
the only guard on the estimate is `pendingCount > 0`. -/
def getJobStats (m : JobMap) (jobId : String) (now : Int) : Option JobStats :=
  match m jobId with
  | none => none
  | some job =>
    let completedCount : Nat := job.completedTranscripts.length
    let pendingCount : Int := job.transcriptCount - completedCount
    let elapsedTime : Int := now - job.startTime
    let estimatedTimeRemaining : JsNum :=
      if 0 < pendingCount then
        (((JsNum.num elapsedTime).div (JsNum.num completedCount)).mul
          (JsNum.num pendingCount)).round
      else JsNum.num 0
    some
      { id := jobId, state := job.state,
        completedCount := completedCount,
        totalCount := job.transcriptCount,
        pendingCount := pendingCount,
        percentComplete :=
          (((JsNum.num completedCount).div
              (JsNum.num job.transcriptCount)).mul (JsNum.num 100)).round,
        elapsedTime := elapsedTime,
        estimatedTimeRemaining := estimatedTimeRemaining,
        startTime := job.startTime, pausedAt := job.pausedAt,
        cancelledAt := job.cancelledAt, completedAt := job.completedAt }

/-! ### Concrete job-store scenarios -/

/-- A store holding one freshly created job `"job1"` (5 transcripts,
started at time 1000). -/
def demoJob1 : Job := (createJob emptyJobs "job1" 5 [] 1000).1

/-- The map after that creation. -/
def demoMap1 : JobMap := (createJob emptyJobs "job1" 5 [] 1000).2

/-- The map after `completeJob("job1")` at time 2000. -/
def demoMapCompleted : JobMap := (completeJob demoMap1 "job1" 2000).2

/-- The completed `"job1"` record. -/
def demoCompletedJob : Job :=
  match (completeJob demoMap1 "job1" 2000).1 with
  | .ok j => j
  | .error _ => demoJob1

/-- The map after `pauseJob("job1")` at time 1500 (from the running map). -/
def demoMapPaused : JobMap := (pauseJob demoMap1 "job1" 1500).2

/-- The paused `"job1"` record. -/
def demoPausedJob : Job :=
  match (pauseJob demoMap1 "job1" 1500).1 with
  | .ok j => j
  | .error _ => demoJob1

/-- C3 counterexample: `cancelJob` on a job already in the terminal state
`completed` does not fail and does not leave the job unchanged — it
succeeds, re-marks the job `cancelled`, stamps the cancel time and aborts
the controller. -/
theorem cancelJob_terminal_counterexample :
    (demoMapCompleted "job1" = some demoCompletedJob
      ∧ demoCompletedJob.state = JobState.completed)
    ∧ (∃ j, cancelJob demoMapCompleted "job1" 3000
          = (Except.ok j, setJob demoMapCompleted "job1" j)
        ∧ j.state = JobState.cancelled
        ∧ j.cancelledAt = some 3000
        ∧ j.abortController.aborted = true
        ∧ ¬ j = demoCompletedJob) := by
  refine ⟨⟨rfl, rfl⟩, ⟨_, rfl, rfl, rfl, rfl, by decide⟩⟩

/-- C3 (amended): `cancelJob(jobId)` succeeds exactly when the job exists,
regardless of its state (terminal states included): it sets
state=`cancelled`, stamps the cancel time and aborts the cancellation
signal; only a missing job makes it fail (with not-found). -/
theorem cancelJob_any_state (m : JobMap) (jobId : String) (now : Int) :
    (m jobId = none →
      cancelJob m jobId now = (Except.error (JobError.notFound jobId), m))
    ∧ (∀ job, m jobId = some job →
        ∃ j, cancelJob m jobId now = (Except.ok j, setJob m jobId j)
          ∧ j.state = JobState.cancelled
          ∧ j.cancelledAt = some now
          ∧ j.abortController.aborted = true
          ∧ j.abortController.generation = job.abortController.generation
          ∧ j.completedTranscripts = job.completedTranscripts) := by
  constructor
  · intro h
    simp [cancelJob, h]
  · intro job h
    refine ⟨{ job with
              state := JobState.cancelled
              cancelledAt := some now
              abortController := { job.abortController with aborted := true } },
      ?_, rfl, rfl, rfl, rfl, rfl⟩
    simp [cancelJob, h]

theorem cancelJob_any_state_witness :
    demoMapCompleted "job1" = some demoCompletedJob
    ∧ demoCompletedJob.state = JobState.completed
    ∧ ∃ j, cancelJob demoMapCompleted "job1" 3000
          = (Except.ok j, setJob demoMapCompleted "job1" j)
        ∧ j.state = JobState.cancelled := by
  obtain ⟨j, hj, hst, -, -, -, -⟩ :=
    (cancelJob_any_state demoMapCompleted "job1" 3000).2 demoCompletedJob rfl
  exact ⟨rfl, rfl, j, hj, hst⟩

/-- C5 counterexample: `createJob` with an already-used `jobId` does not
fail and does not leave the existing job unchanged — it silently builds a
fresh record and overwrites the map entry. -/
theorem createJob_duplicate_counterexample :
    demoMap1 "job1" = some demoJob1
    ∧ demoJob1.transcriptCount = 5
    ∧ (createJob demoMap1 "job1" 3 [] 4000).2 "job1"
        = some (createJob demoMap1 "job1" 3 [] 4000).1
    ∧ (createJob demoMap1 "job1" 3 [] 4000).1.transcriptCount = 3
    ∧ ¬ (createJob demoMap1 "job1" 3 [] 4000).2 "job1" = some demoJob1 := by
  exact ⟨rfl, rfl, rfl, rfl, by decide⟩

/-- C5 (amended): `createJob(jobId, totalCount, combos)` never fails: with
no existence check, it unconditionally builds a fresh record with initial
state `running` and stores it under `jobId`, overwriting any existing job
with the same id. -/
theorem createJob_always_creates (m : JobMap) (jobId : String)
    (transcriptCount : Int) (combos : List ProcessedCombo) (now : Int) :
    (createJob m jobId transcriptCount combos now).1.state = JobState.running
    ∧ (createJob m jobId transcriptCount combos now).1.transcriptCount
        = transcriptCount
    ∧ (createJob m jobId transcriptCount combos now).1.startTime = now
    ∧ (createJob m jobId transcriptCount combos now).1.completedTranscripts = []
    ∧ (createJob m jobId transcriptCount combos now).2 jobId
        = some (createJob m jobId transcriptCount combos now).1 := by
  refine ⟨rfl, rfl, rfl, rfl, ?_⟩
  simp [createJob, setJob]

/-- C7: `pauseJob` fails with an invalid-transition error, leaving the map
unchanged, whenever the job is not `running` (in particular when already
`paused`); `resumeJob` fails likewise whenever the job is not `paused` (in
particular when `running`); successful pause sets state=`paused` and stamps
the pause time; successful resume sets state=`running`, clears the pause
time and installs a fresh cancellation-signal object. -/
theorem pause_resume_transitions (m : JobMap) (jobId : String) (now : Int) :
    (m jobId = none →
      pauseJob m jobId now = (Except.error (JobError.notFound jobId), m)
      ∧ resumeJob m jobId now = (Except.error (JobError.notFound jobId), m))
    ∧ (∀ job, m jobId = some job → ¬ job.state = JobState.running →
        pauseJob m jobId now
          = (Except.error (JobError.invalidTransition "pause" job.state), m))
    ∧ (∀ job, m jobId = some job → job.state = JobState.running →
        ∃ j, pauseJob m jobId now = (Except.ok j, setJob m jobId j)
          ∧ j.state = JobState.paused
          ∧ j.pausedAt = some now
          ∧ j.abortController = job.abortController)
    ∧ (∀ job, m jobId = some job → ¬ job.state = JobState.paused →
        resumeJob m jobId now
          = (Except.error (JobError.invalidTransition "resume" job.state), m))
    ∧ (∀ job, m jobId = some job → job.state = JobState.paused →
        ∃ j, resumeJob m jobId now = (Except.ok j, setJob m jobId j)
          ∧ j.state = JobState.running
          ∧ j.pausedAt = none
          ∧ j.abortController
              = { generation := job.abortController.generation + 1
                  aborted := false }) := by
  refine ⟨?_, ?_, ?_, ?_, ?_⟩
  · intro h
    exact ⟨by simp [pauseJob, h], by simp [resumeJob, h]⟩
  · intro job h hs
    simp [pauseJob, h, hs]
  · intro job h hs
    refine ⟨{ job with state := JobState.paused, pausedAt := some now },
      ?_, rfl, rfl, rfl⟩
    simp [pauseJob, h, hs]
  · intro job h hs
    simp [resumeJob, h, hs]
  · intro job h hs
    refine ⟨{ job with
              state := JobState.running
              pausedAt := none
              abortController :=
                { generation := job.abortController.generation + 1
                  aborted := false } },
      ?_, rfl, rfl, rfl⟩
    simp [resumeJob, h, hs]

theorem pause_resume_transitions_witness :
    demoMap1 "job1" = some demoJob1
    ∧ demoJob1.state = JobState.running
    ∧ demoMapPaused "job1" = some demoPausedJob
    ∧ demoPausedJob.state = JobState.paused
    ∧ pauseJob demoMapPaused "job1" 9000
        = (Except.error (JobError.invalidTransition "pause" demoPausedJob.state),
           demoMapPaused)
    ∧ resumeJob demoMap1 "job1" 9000
        = (Except.error (JobError.invalidTransition "resume" demoJob1.state),
           demoMap1)
    ∧ (∃ j, pauseJob demoMap1 "job1" 1500 = (Except.ok j, setJob demoMap1 "job1" j)
        ∧ j.state = JobState.paused ∧ j.pausedAt = some 1500)
    ∧ (∃ j, resumeJob demoMapPaused "job1" 2500
          = (Except.ok j, setJob demoMapPaused "job1" j)
        ∧ j.state = JobState.running ∧ j.pausedAt = none) := by
  have hbundle := pause_resume_transitions demoMapPaused "job1" 9000
  have hfail := hbundle.2.1 demoPausedJob rfl (by decide)
  have hres := (pause_resume_transitions demoMap1 "job1" 9000).2.2.2.1
    demoJob1 rfl (by decide)
  obtain ⟨j1, hj1, hj1s, hj1p, -⟩ :=
    (pause_resume_transitions demoMap1 "job1" 1500).2.2.1 demoJob1 rfl rfl
  obtain ⟨j2, hj2, hj2s, hj2p, -⟩ :=
    (pause_resume_transitions demoMapPaused "job1" 2500).2.2.2.2
      demoPausedJob rfl rfl
  exact ⟨rfl, rfl, rfl, rfl, hfail, hres, ⟨j1, hj1, hj1s, hj1p⟩,
    ⟨j2, hj2, hj2s, hj2p⟩⟩

/-! ### The remaining-time estimate (claim about `getJobStats`) -/

theorem estimate_nonfinite_of_no_completions (a p : ℚ) (hp : 0 < p) :
    ((((JsNum.num a).div (JsNum.num 0)).mul (JsNum.num p)).round).isFinite
      = false := by
  by_cases h0 : a = 0
  · simp [JsNum.div, h0, JsNum.mul, JsNum.round, JsNum.isFinite]
  · by_cases hpos : 0 < a
    · simp [JsNum.div, h0, hpos, JsNum.mul, JsNum.round, JsNum.isFinite,
        hp, hp.ne']
    · simp [JsNum.div, h0, hpos, JsNum.mul, JsNum.round, JsNum.isFinite,
        hp, hp.ne']

theorem estimate_finite_of_completions (a c p : ℚ) (hc : ¬ c = 0) :
    ((((JsNum.num a).div (JsNum.num c)).mul (JsNum.num p)).round).isFinite
      = true := by
  simp [JsNum.div, hc, JsNum.mul, JsNum.round, JsNum.isFinite]

/-- C4 counterexample: a running job with pending work and zero completed
transcripts (5 requested, none done, positive elapsed time) gets
`estimatedTimeRemaining = Infinity` from `getJobStats` — the
`pendingCount > 0` guard does not protect the `elapsed / completedCount`
division, so the stats value is not finite. -/
theorem getJobStats_infinite_counterexample :
    ∃ stats, getJobStats demoMap1 "job1" 2000 = some stats
      ∧ stats.completedCount = 0
      ∧ stats.pendingCount = 5
      ∧ stats.estimatedTimeRemaining = JsNum.posInf
      ∧ stats.estimatedTimeRemaining.isFinite = false := by
  refine ⟨_, rfl, by decide, by decide, by decide, by decide⟩

/-- C4 (amended): `getJobStats` guards the remaining-time estimate on
`pendingCount > 0`, not on `completedCount == 0`; the estimate is the
JS value `Math.round((elapsedTime / completedCount) * pendingCount)` when
work is pending and `0` otherwise, and it is finite exactly when the job
has no pending work or at least one completed transcript. -/
theorem getJobStats_estimate_finiteness (m : JobMap) (jobId : String)
    (now : Int) (job : Job) (h : m jobId = some job) :
    ∃ stats, getJobStats m jobId now = some stats
      ∧ stats.completedCount = job.completedTranscripts.length
      ∧ stats.pendingCount
          = job.transcriptCount - job.completedTranscripts.length
      ∧ stats.estimatedTimeRemaining
          = (if 0 < job.transcriptCount - (job.completedTranscripts.length : Int)
             then (((JsNum.num ((now - job.startTime : Int) : ℚ)).div
                      (JsNum.num (job.completedTranscripts.length : ℚ))).mul
                    (JsNum.num ((job.transcriptCount
                      - (job.completedTranscripts.length : Int) : Int) : ℚ))).round
             else JsNum.num 0)
      ∧ (stats.estimatedTimeRemaining.isFinite = true ↔
          (job.transcriptCount ≤ (job.completedTranscripts.length : Int)
            ∨ 0 < job.completedTranscripts.length)) := by
  simp only [getJobStats, h]
  refine ⟨_, rfl, rfl, rfl, rfl, ?_⟩
  by_cases hp : 0 < job.transcriptCount - (job.completedTranscripts.length : Int)
  · rw [if_pos hp]
    by_cases hc : job.completedTranscripts.length = 0
    · have hcq : ((job.completedTranscripts.length : ℚ)) = 0 := by
        exact_mod_cast hc
      rw [hcq]
      rw [estimate_nonfinite_of_no_completions _ _ (by exact_mod_cast hp)]
      simp only [Bool.false_eq_true, false_iff]
      intro hcontra
      rcases hcontra with h1 | h2
      · omega
      · omega
    · rw [estimate_finite_of_completions _ _ _ (by exact_mod_cast hc)]
      simp only [eq_self_iff_true, true_iff]
      right
      omega
  · rw [if_neg hp]
    simp only [JsNum.isFinite, eq_self_iff_true, true_iff]
    left
    omega

theorem getJobStats_estimate_finiteness_witness :
    demoMap1 "job1" = some demoJob1
    ∧ ∃ stats, getJobStats demoMap1 "job1" 2000 = some stats
      ∧ stats.estimatedTimeRemaining.isFinite = false := by
  obtain ⟨stats, hs, -, -, -, hiff⟩ :=
    getJobStats_estimate_finiteness demoMap1 "job1" 2000 demoJob1 rfl
  refine ⟨rfl, stats, hs, ?_⟩
  have hno : ¬ (demoJob1.transcriptCount
        ≤ (demoJob1.completedTranscripts.length : Int)
      ∨ 0 < demoJob1.completedTranscripts.length) := by decide
  cases hfin : stats.estimatedTimeRemaining.isFinite
  · rfl
  · exact absurd (hiff.mp hfin) hno

/-! ## Retry with exponential backoff (`server.js`, `retryWithBackoff`)

`retryWithBackoff(fn, maxRetries)` runs `fn` for `attempt = 0..maxRetries`;
on failure it sleeps `RETRY_DELAY_MS * 2^attempt` (only when another attempt
remains) and, when every attempt failed, rethrows the last error.  The
outcome of attempt `i` is modelled by `fn i : Except E A`; the embedding
returns the result together with the cumulative backoff delay and the
number of attempts actually made. -/

/-- The retry loop from the attempt whose index is `attempt`, with
`remaining` further retries allowed; returns
`(result, cumulative delay, attempts made)`. -/
def retryLoop {E A : Type} (fn : Nat → Except E A) (baseDelay : Nat) :
    Nat → Nat → Except E A × Nat × Nat
  | 0, attempt =>
    match fn attempt with
    | .ok a => (.ok a, 0, 1)
    | .error e => (.error e, 0, 1)
  | r + 1, attempt =>
    match fn attempt with
    | .ok a => (.ok a, 0, 1)
    | .error _ =>
      let p := retryLoop fn baseDelay r (attempt + 1)
      (p.1, baseDelay * 2 ^ attempt + p.2.1, 1 + p.2.2)

/-- `retryWithBackoff(fn, maxRetries)` with configurable base delay. -/
def retryWithBackoff {E A : Type} (fn : Nat → Except E A)
    (maxRetries baseDelay : Nat) : Except E A × Nat × Nat :=
  retryLoop fn baseDelay maxRetries 0

theorem sum_pow_two (k : Nat) : ∑ i ∈ Finset.range k, 2 ^ i = 2 ^ k - 1 := by
  induction k with
  | zero => simp
  | succ k ih =>
    rw [Finset.sum_range_succ, ih]
    have h1 : 1 ≤ 2 ^ k := Nat.one_le_two_pow
    have h2 : 2 ^ (k + 1) = 2 ^ k * 2 := pow_succ 2 k
    omega

theorem retryLoop_succeeds {E A : Type} (fn : Nat → Except E A)
    (baseDelay : Nat) :
    ∀ j remaining attempt a, j ≤ remaining →
      (∀ i, i < j → ∃ e, fn (attempt + i) = .error e) →
      fn (attempt + j) = .ok a →
      (retryLoop fn baseDelay remaining attempt).1 = .ok a
      ∧ (retryLoop fn baseDelay remaining attempt).2.1
          = ∑ i ∈ Finset.range j, baseDelay * 2 ^ (attempt + i)
      ∧ (retryLoop fn baseDelay remaining attempt).2.2 = j + 1 := by
  intro j
  induction j with
  | zero =>
    intro remaining attempt a _ _ hok
    have hok' : fn attempt = .ok a := by simpa using hok
    refine ⟨?_, ?_, ?_⟩ <;> cases remaining <;> simp [retryLoop, hok']
  | succ j ih =>
    intro remaining attempt a hle hfail hok
    obtain ⟨e, he⟩ := hfail 0 (by omega)
    have he' : fn attempt = .error e := by simpa using he
    obtain ⟨r, rfl⟩ : ∃ r, remaining = r + 1 := ⟨remaining - 1, by omega⟩
    have hfail' : ∀ i, i < j → ∃ e, fn (attempt + 1 + i) = .error e := by
      intro i hi
      obtain ⟨e2, he2⟩ := hfail (i + 1) (by omega)
      exact ⟨e2, by rwa [show attempt + (i + 1) = attempt + 1 + i by omega] at he2⟩
    have hok' : fn (attempt + 1 + j) = .ok a := by
      rwa [show attempt + (j + 1) = attempt + 1 + j by omega] at hok
    obtain ⟨ih1, ih2, ih3⟩ := ih r (attempt + 1) a (by omega) hfail' hok'
    have hsum : ∑ i ∈ Finset.range (j + 1), baseDelay * 2 ^ (attempt + i)
        = baseDelay * 2 ^ attempt
          + ∑ i ∈ Finset.range j, baseDelay * 2 ^ (attempt + 1 + i) := by
      rw [Finset.sum_range_succ']
      have h2 : (∑ i ∈ Finset.range j, baseDelay * 2 ^ (attempt + (i + 1)))
          = ∑ i ∈ Finset.range j, baseDelay * 2 ^ (attempt + 1 + i) :=
        Finset.sum_congr rfl (fun i _ => by
          rw [show attempt + (i + 1) = attempt + 1 + i by omega])
      rw [h2, Nat.add_zero]
      exact Nat.add_comm _ _
    refine ⟨?_, ?_, ?_⟩
    · simp only [retryLoop, he']
      exact ih1
    · simp only [retryLoop, he']
      rw [ih2, hsum]
    · simp only [retryLoop, he']
      rw [ih3]
      omega

theorem retryLoop_exhausts {E A : Type} (fn : Nat → Except E A)
    (baseDelay : Nat) (err : Nat → E) :
    ∀ remaining attempt,
      (∀ i, i ≤ remaining → fn (attempt + i) = .error (err (attempt + i))) →
      (retryLoop fn baseDelay remaining attempt).1
        = .error (err (attempt + remaining)) := by
  intro remaining
  induction remaining with
  | zero =>
    intro attempt h
    have h0 : fn attempt = .error (err attempt) := by simpa using h 0 (by omega)
    simp [retryLoop, h0]
  | succ r ih =>
    intro attempt h
    have h0 : fn attempt = .error (err attempt) := by simpa using h 0 (by omega)
    have hr := ih (attempt + 1) (fun i hi => by
      have h2 := h (i + 1) (by omega)
      rwa [show attempt + (i + 1) = attempt + 1 + i by omega] at h2)
    simp only [retryLoop, h0]
    rwa [show attempt + 1 + r = attempt + (r + 1) by omega] at hr

/-- C6: if the operation fails on attempts `0..k-1` and succeeds on attempt
`k` with `k ≤ maxRetries`, `retryWithBackoff` returns the success value,
makes exactly `k + 1` calls (`k` retries), and accumulates exactly
`∑ i < k, baseDelay * 2^i ≥ baseDelay * (2^k - 1)` of backoff delay; if
every attempt `0..maxRetries` fails, it surfaces the last attempt's
error. -/
theorem retryWithBackoff_spec {E A : Type} (fn : Nat → Except E A)
    (maxRetries baseDelay : Nat) :
    (∀ k a, k ≤ maxRetries →
      (∀ i, i < k → ∃ e, fn i = .error e) →
      fn k = .ok a →
      (retryWithBackoff fn maxRetries baseDelay).1 = .ok a
      ∧ (retryWithBackoff fn maxRetries baseDelay).2.2 = k + 1
      ∧ (retryWithBackoff fn maxRetries baseDelay).2.1
          = ∑ i ∈ Finset.range k, baseDelay * 2 ^ i
      ∧ baseDelay * (2 ^ k - 1)
          ≤ (retryWithBackoff fn maxRetries baseDelay).2.1)
    ∧ (∀ err : Nat → E, (∀ i, i ≤ maxRetries → fn i = .error (err i)) →
        (retryWithBackoff fn maxRetries baseDelay).1
          = .error (err maxRetries)) := by
  constructor
  · intro k a hk hfail hok
    obtain ⟨h1, h2, h3⟩ := retryLoop_succeeds fn baseDelay k maxRetries 0 a hk
      (fun i hi => by rw [Nat.zero_add]; exact hfail i hi)
      (by rwa [Nat.zero_add])
    have hsum0 : ∑ i ∈ Finset.range k, baseDelay * 2 ^ (0 + i)
        = ∑ i ∈ Finset.range k, baseDelay * 2 ^ i := by
      refine Finset.sum_congr rfl ?_
      intro i _
      rw [Nat.zero_add]
    refine ⟨h1, h3, by rw [retryWithBackoff, h2, hsum0], ?_⟩
    rw [retryWithBackoff, h2, hsum0, ← Finset.mul_sum, sum_pow_two]
  · intro err hall
    have := retryLoop_exhausts fn baseDelay err maxRetries 0
      (fun i hi => by rw [Nat.zero_add]; exact hall i hi)
    rwa [Nat.zero_add] at this

/-- An operation that fails on its first two attempts and succeeds on the
third (concrete scenario C's failing unit). -/
def demoAttempts : Nat → Except String Nat :=
  fun i => if i < 2 then .error "boom" else .ok 42

/-- An operation that fails on every attempt, reporting its attempt index. -/
def demoFailAttempts : Nat → Except Nat Nat := fun i => .error i

theorem retryWithBackoff_spec_witness :
    ((retryWithBackoff demoAttempts 2 1000).1 = Except.ok 42
      ∧ (retryWithBackoff demoAttempts 2 1000).2.2 = 3
      ∧ (retryWithBackoff demoAttempts 2 1000).2.1 = 3000)
    ∧ (retryWithBackoff demoFailAttempts 2 1000).1 = Except.error 2 := by
  obtain ⟨h1, h2, h3, -⟩ := (retryWithBackoff_spec demoAttempts 2 1000).1 2 42
    (by decide)
    (fun i hi => ⟨"boom", by simp [demoAttempts, hi]⟩)
    rfl
  refine ⟨⟨h1, h2, by rw [h3]; decide⟩, ?_⟩
  exact (retryWithBackoff_spec demoFailAttempts 2 1000).2
    (fun i => i) (fun i _ => rfl)

/-! ## Series content splitting (`server.js`, `splitSeriesContent`)

`splitSeriesContent(content, episodes)` splits the returned series text on
episode-boundary lines; when that yields fewer segments than episodes it
falls back to an even line-count split.  JS whitespace and case folding are
modelled on the ASCII range (the only range exercised by the markers and
prompts involved). -/

/-- A character matched by the regex class `\s` (ASCII range). -/
def isJsSpace (c : Char) : Bool :=
  c = ' ' || c = '\t' || c = '\n' || c = '\r' || c = '\x0b' || c = '\x0c'

/-- Strip `pat` (a lower-case pattern) from the front of `cs`, comparing
case-insensitively. -/
def stripPrefixCI : List Char → List Char → Option (List Char)
  | [], cs => some cs
  | _, [] => none
  | p :: ps, c :: cs => if c.toLower = p then stripPrefixCI ps cs else none

/-- Does `Episode\s+\d` (case-insensitive) match at the head of `cs`? -/
def episodeNumAt (cs : List Char) : Bool :=
  match stripPrefixCI "episode".toList cs with
  | none => false
  | some rest =>
    match rest.dropWhile isJsSpace with
    | [] => false
    | d :: _ => !(rest.takeWhile isJsSpace).isEmpty && d.isDigit

/-- Does `Episode\s+\d` (case-insensitive) match anywhere in `cs`? -/
def containsEpisodeNum : List Char → Bool
  | [] => false
  | c :: rest => episodeNumAt (c :: rest) || containsEpisodeNum rest

/-- The test `line.match(/^#+\s+.*Episode\s+\d/i)`: one or more `#`, at
least one whitespace, then `Episode\s+\d` somewhere to the right. -/
def matchesEpisodeHeading (line : String) : Bool :=
  let cs := line.toList
  let hashes := cs.takeWhile (fun c => c = '#')
  match cs.dropWhile (fun c => c = '#') with
  | [] => false
  | c :: rest => !hashes.isEmpty && isJsSpace c && containsEpisodeNum rest

/-- Is `pre` a prefix of the second list? -/
def listPrefixOf : List Char → List Char → Bool
  | [], _ => true
  | _ :: _, [] => false
  | a :: as, b :: bs => a = b && listPrefixOf as bs

/-- Does `sub` occur contiguously inside the second list? -/
def listInfixOf (sub : List Char) : List Char → Bool
  | [] => listPrefixOf sub []
  | c :: rest => listPrefixOf sub (c :: rest) || listInfixOf sub rest

/-- JS `String.prototype.includes`. -/
def jsIncludes (s sub : String) : Bool :=
  listInfixOf sub.toList s.toList

/-- The episode-boundary test of the splitting loop:
`(line.toLowerCase().includes('episode') && line.includes(':')) ||
line.match(/^#+\s+.*Episode\s+\d/i)`. -/
def isBoundaryLine (line : String) : Bool :=
  (jsIncludes line.toLower "episode" && jsIncludes line ":")
    || matchesEpisodeHeading line

/-- The marker-splitting loop of `splitSeriesContent`, carrying the
`currentEpisode` buffer and the `episodeCount` counter; the trailing
non-empty buffer is pushed after the loop. -/
def markerLoop : List String → List String → Nat → List (List String)
  | [], current, _ => if current.isEmpty then [] else [current]
  | l :: rest, current, count =>
    if isBoundaryLine l then
      if ¬ current.isEmpty ∧ 0 < count then
        current :: markerLoop rest [l] (count + 1)
      else
        markerLoop rest (current ++ [l]) (count + 1)
    else
      markerLoop rest (current ++ [l]) count

/-- The even line-count fallback split into `n` parts (the `i`-th part is
`lines.slice(i*q, (i+1)*q)` for `q = ⌊lines.length / n⌋`, the last part
running to the end). -/
def fallbackSplit (lines : List String) (n : Nat) : List String :=
  let linesPerEpisode := lines.length / n
  (List.range n).map (fun i =>
    let start := i * linesPerEpisode
    let stop := if i = n - 1 then lines.length else (i + 1) * linesPerEpisode
    String.intercalate "\n" ((lines.drop start).take (stop - start)))

/-- `splitSeriesContent(content, episodes)`: marker split, fallback when it
found fewer segments than episodes, then truncation to the episode
count. -/
def splitSeriesContent (content : String) (episodes : List ProcessedCombo) :
    List String :=
  let lines := content.splitOn "\n"
  let episodeTexts := (markerLoop lines [] 0).map
    (fun ls => String.intercalate "\n" ls)
  let texts :=
    if episodeTexts.length < episodes.length then
      fallbackSplit lines episodes.length
    else episodeTexts
  texts.take episodes.length

theorem fallbackSplit_length (lines : List String) (n : Nat) :
    (fallbackSplit lines n).length = n := by
  simp [fallbackSplit]

/-- C8: for every content string and non-empty episode list of length `n`,
`splitSeriesContent` returns exactly `n` segments, and whenever the
marker-based split produced fewer than `n` segments the result is exactly
the even line-count fallback split into `n` parts. -/
theorem splitSeriesContent_segment_count (content : String)
    (episodes : List ProcessedCombo) (h : episodes ≠ []) :
    (splitSeriesContent content episodes).length = episodes.length
    ∧ ((markerLoop (content.splitOn "\n") [] 0).length < episodes.length →
        splitSeriesContent content episodes
          = fallbackSplit (content.splitOn "\n") episodes.length) := by
  have hn : 0 < episodes.length := List.length_pos.mpr h
  constructor
  · simp only [splitSeriesContent]
    by_cases hlt : ((markerLoop (content.splitOn "\n") [] 0).map
        (fun ls => String.intercalate "\n" ls)).length < episodes.length
    · rw [if_pos hlt]
      rw [List.take_of_length_le (le_of_eq (fallbackSplit_length _ _))]
      exact fallbackSplit_length _ _
    · rw [if_neg hlt]
      rw [List.length_take]
      omega
  · intro hcond
    simp only [splitSeriesContent]
    have hlt : ((markerLoop (content.splitOn "\n") [] 0).map
        (fun ls => String.intercalate "\n" ls)).length < episodes.length := by
      rw [List.length_map]
      exact hcond
    rw [if_pos hlt]
    exact List.take_of_length_le (le_of_eq (fallbackSplit_length _ _))

/-- The four episode units of one concrete series, as passed to
`splitSeriesContent`. -/
def demoSeriesCombos : List ProcessedCombo := seriesBlock demoSeries 0

theorem splitSeriesContent_segment_count_witness :
    (demoSeriesCombos ≠ [])
    ∧ (splitSeriesContent "# Episode 1\nhello\n# Episode 2\nworld"
        demoSeriesCombos).length = 4 := by
  constructor
  · decide
  · exact (splitSeriesContent_segment_count
      "# Episode 1\nhello\n# Episode 2\nworld" demoSeriesCombos
      (by decide)).1

/-! ## Per-job cost tracking (`server.js`, `costTracking`)

`costTracking` is created per job with empty `usageRecords` and zero
totals.  Exactly two code paths mutate the token fields — the success paths
of `generateSeries` and `generateSingle` — and both push one usage record
and add that record's `inputTokens`/`outputTokens` to the cumulative
totals.  The only other mutation of the object assigns `totalCost`.  A
reachable ledger state is therefore a fold of these operations over the
initial state. -/

/-- One element of `costTracking.usageRecords`
(`{inputTokens, outputTokens, model, type}`). -/
structure UsageRecord where
  inputTokens : Nat
  outputTokens : Nat
  model : String
  kind : String
deriving DecidableEq, Repr

/-- The `costTracking` object. -/
structure CostTracking where
  usageRecords : List UsageRecord
  totalInputTokens : Nat
  totalOutputTokens : Nat
  totalCost : ℚ
deriving DecidableEq, Repr

/-- `costTracking`'s initial value. -/
def initCostTracking : CostTracking :=
  { usageRecords := [], totalInputTokens := 0, totalOutputTokens := 0,
    totalCost := 0 }

/-- The operations that mutate `costTracking` during a job: recording one
call's usage (`generateSeries`/`generateSingle` success paths), or
assigning the running `totalCost`. -/
inductive LedgerOp where
  | record (r : UsageRecord)
  | setTotalCost (q : ℚ)
deriving DecidableEq, Repr

/-- Apply one mutation: `record` is the push plus the two `+=` statements;
`setTotalCost` is the `costTracking.totalCost = currentCost.totalCost`
assignment. -/
def applyLedgerOp (ct : CostTracking) : LedgerOp → CostTracking
  | .record r =>
    { ct with
      usageRecords := ct.usageRecords ++ [r]
      totalInputTokens := ct.totalInputTokens + r.inputTokens
      totalOutputTokens := ct.totalOutputTokens + r.outputTokens }
  | .setTotalCost q => { ct with totalCost := q }

/-- Ledger consistency: the cumulative totals equal the sums over the
recorded per-call usages. -/
def ledgerConsistent (ct : CostTracking) : Prop :=
  ct.totalInputTokens = (ct.usageRecords.map (fun r => r.inputTokens)).sum
  ∧ ct.totalOutputTokens = (ct.usageRecords.map (fun r => r.outputTokens)).sum

theorem ledgerConsistent_apply (ct : CostTracking) (op : LedgerOp)
    (h : ledgerConsistent ct) : ledgerConsistent (applyLedgerOp ct op) := by
  obtain ⟨h1, h2⟩ := h
  cases op with
  | record r =>
    constructor
    · simp [applyLedgerOp, h1]
    · simp [applyLedgerOp, h2]
  | setTotalCost q => exact ⟨h1, h2⟩

/-- C9: at every point during a job — i.e. after any sequence of the
mutations the code performs on `costTracking` — the cumulative
`totalInputTokens` and `totalOutputTokens` equal the sums of the
`inputTokens` and `outputTokens` of all recorded usage records. -/
theorem costTracking_ledger_consistent (ops : List LedgerOp) :
    ledgerConsistent (ops.foldl applyLedgerOp initCostTracking) := by
  have hgen : ∀ ct, ledgerConsistent ct →
      ledgerConsistent (ops.foldl applyLedgerOp ct) := by
    induction ops with
    | nil => intro ct h; exact h
    | cons op rest ih =>
      intro ct h
      exact ih (applyLedgerOp ct op) (ledgerConsistent_apply ct op h)
  exact hgen initCostTracking ⟨rfl, rfl⟩

/-! ## Pricing (`pricing.js`)

The pricing table `MODEL_PRICING` and the pure cost helpers.  Prices are
exact decimals, modelled in `ℚ`; `toFixed(6)`-plus-`parseFloat` is modelled
as decimal rounding to six places, which agrees with the JS result on
these magnitudes.  The Sonnet 4.5 entry's over-limit fields are `Option`s
mirroring which properties each JS entry has.

`MODEL_PRICING` is a plain object literal and `getPricing` reads it with
bracket access, which consults the prototype chain: for the names of
`Object.prototype` members (`'constructor'`, `'toString'`, `'valueOf'`,
`'hasOwnProperty'`, `'__proto__'`, ...) the lookup yields the inherited
function (or, for `'__proto__'`, `Object.prototype` itself) — a truthy
value that `||` keeps, so `getPricing` returns it instead of falling back
to the Sonnet 4.5 entry.  Downstream, every pricing field read on such a
value (or on the plain object produced by spreading it — functions and
`Object.prototype` have no own enumerable properties) is `undefined`:
`isDynamic` is falsy, `number * undefined` is `NaN`, and `parseFloat` of
`NaN.toFixed(6)` is `NaN`.  The lookup therefore has three outcomes, and
the cost fields are `JsNum`s so the `NaN` results are representable. -/

/-- One entry of `MODEL_PRICING` (prices per million tokens). -/
structure PricingInfo where
  name : String
  inputPrice : ℚ
  outputPrice : ℚ
  inputPriceOverLimit : Option ℚ
  outputPriceOverLimit : Option ℚ
  tokenLimitThreshold : Option Nat
  isDynamic : Bool
deriving DecidableEq, Repr

/-- `'claude-haiku-4-5-20251001'`: $0.80 / $4.00 per million tokens. -/
def haiku45Pricing : PricingInfo :=
  { name := "Haiku 4.5", inputPrice := 4/5, outputPrice := 4,
    inputPriceOverLimit := none, outputPriceOverLimit := none,
    tokenLimitThreshold := none, isDynamic := false }

/-- `'claude-3-7-sonnet-20250219'`: $3.00 / $15.00 per million tokens. -/
def sonnet37Pricing : PricingInfo :=
  { name := "Sonnet 3.7", inputPrice := 3, outputPrice := 15,
    inputPriceOverLimit := none, outputPriceOverLimit := none,
    tokenLimitThreshold := none, isDynamic := false }

/-- `'claude-sonnet-4-5-20250929'`: $3.00 / $15.00, rising to
$6.00 / $22.50 above the 200K-token threshold. -/
def sonnet45Pricing : PricingInfo :=
  { name := "Sonnet 4.5", inputPrice := 3, outputPrice := 15,
    inputPriceOverLimit := some 6, outputPriceOverLimit := some (45/2),
    tokenLimitThreshold := some 200000, isDynamic := true }

/-- `'claude-opus-4-1-20250805'`: $15.00 / $75.00 per million tokens. -/
def opus41Pricing : PricingInfo :=
  { name := "Opus 4.1", inputPrice := 15, outputPrice := 75,
    inputPriceOverLimit := none, outputPriceOverLimit := none,
    tokenLimitThreshold := none, isDynamic := false }

/-- The own property names of `Object.prototype` (Node/V8), every one of
which a plain object inherits: bracket access on `MODEL_PRICING` with one
of these strings yields the inherited member, a truthy non-pricing
value. -/
def OBJECT_PROTOTYPE_MEMBERS : List String :=
  ["constructor", "hasOwnProperty", "isPrototypeOf", "propertyIsEnumerable",
   "toLocaleString", "toString", "valueOf", "__defineGetter__",
   "__defineSetter__", "__lookupGetter__", "__lookupSetter__", "__proto__"]

/-- Outcome of the JS bracket access `MODEL_PRICING[modelId]`: an own data
property holding a pricing entry, a member inherited from
`Object.prototype` (truthy, not a pricing entry), or `undefined`
(constructor `missing`). -/
inductive JsLookup where
  | own (p : PricingInfo)
  | inherited (name : String)
  | missing
deriving DecidableEq, Repr

/-- `MODEL_PRICING[modelId]`: the four own keys shadow nothing; any
`Object.prototype` member name is found on the prototype chain; every
other string yields `undefined`. -/
def MODEL_PRICING (modelId : String) : JsLookup :=
  if modelId = "claude-haiku-4-5-20251001" then .own haiku45Pricing
  else if modelId = "claude-3-7-sonnet-20250219" then .own sonnet37Pricing
  else if modelId = "claude-sonnet-4-5-20250929" then .own sonnet45Pricing
  else if modelId = "claude-opus-4-1-20250805" then .own opus41Pricing
  else if modelId ∈ OBJECT_PROTOTYPE_MEMBERS then .inherited modelId
  else .missing

/-- The value `getPricing` returns: a pricing entry, or an inherited
`Object.prototype` member (every pricing field read on it is
`undefined`). -/
inductive PricingObject where
  | entry (p : PricingInfo)
  | protoMember (name : String)
deriving DecidableEq, Repr

/-- `getPricing(modelId)`:
`MODEL_PRICING[modelId] || MODEL_PRICING['claude-sonnet-4-5-20250929']`.
Only `undefined` is falsy here: an inherited member is truthy, so `||`
returns it rather than the Sonnet 4.5 fallback. -/
def getPricing (modelId : String) : PricingObject :=
  match MODEL_PRICING modelId with
  | .own p => .entry p
  | .inherited n => .protoMember n
  | .missing => .entry sonnet45Pricing

/-- The value `getPricingForPromptLength` returns: an adjusted pricing
entry, or — when the base was an inherited member, whose `isDynamic` is
`undefined` (falsy) — the spread `{...basePricing, pricingTier}` of a
function/`Object.prototype`, which copies no own enumerable properties and
therefore has every pricing field `undefined`. -/
inductive TieredPricing where
  | entry (p : PricingInfo)
  | bare
deriving DecidableEq, Repr

/-- `getPricingForPromptLength(modelId, inputTokens)`: applies the
over-limit prices when the entry is dynamic and the prompt exceeds the
threshold (a missing threshold never compares greater, as in JS); returns
the adjusted object with its `pricingTier` tag.  The `getD` defaults are
never exercised: the only dynamic entry carries both over-limit prices. -/
def getPricingForPromptLength (modelId : String) (inputTokens : Nat) :
    TieredPricing × String :=
  match getPricing modelId with
  | .entry basePricing =>
    if basePricing.isDynamic
        && (match basePricing.tokenLimitThreshold with
            | some t => decide (t < inputTokens)
            | none => false) then
      (.entry { basePricing with
         inputPrice :=
           basePricing.inputPriceOverLimit.getD basePricing.inputPrice
         outputPrice :=
           basePricing.outputPriceOverLimit.getD basePricing.outputPrice },
       "over_limit")
    else (.entry basePricing, "standard")
  | .protoMember _ => (.bare, "standard")

/-- JS `+` on the number cases arising here. -/
def JsNum.add : JsNum → JsNum → JsNum
  | .num a, .num b => .num (a + b)
  | .posInf, .num _ => .posInf
  | .num _, .posInf => .posInf
  | .negInf, .num _ => .negInf
  | .num _, .negInf => .negInf
  | .posInf, .posInf => .posInf
  | .negInf, .negInf => .negInf
  | _, _ => .nan

/-- `parseFloat(x.toFixed(6))`: decimal rounding to six places on finite
values; `NaN`/`Infinity` round-trip to themselves through the string
forms. -/
def JsNum.toFixed6 : JsNum → JsNum
  | .num q => .num (((⌊q * 1000000 + 1/2⌋ : ℤ) : ℚ) / 1000000)
  | x => x

/-- The object returned by `calculateCost`.  Cost fields are JS numbers
(`NaN` for an inherited-member pricing); `modelName` is `none` when
`pricing.name` is `undefined`. -/
structure CostResult where
  inputCost : JsNum
  outputCost : JsNum
  totalCost : JsNum
  inputTokens : Nat
  outputTokens : Nat
  totalTokens : Nat
  modelName : Option String
  pricingTier : Option String
deriving DecidableEq, Repr

/-- `calculateCost(inputTokens, outputTokens, modelId)`.  On a `bare`
pricing object `inputPrice`/`outputPrice`/`name`/`isDynamic` are all
`undefined`: `number * undefined = NaN`, `NaN + NaN = NaN`, and the
`isDynamic` test is falsy. -/
def calculateCost (inputTokens outputTokens : Nat) (modelId : String) :
    CostResult :=
  let pr := getPricingForPromptLength modelId inputTokens
  match pr.1 with
  | .entry pricing =>
    let inputCost : JsNum :=
      .num (((inputTokens : ℚ) / 1000000) * pricing.inputPrice)
    let outputCost : JsNum :=
      .num (((outputTokens : ℚ) / 1000000) * pricing.outputPrice)
    let totalCost := inputCost.add outputCost
    { inputCost := inputCost.toFixed6
      outputCost := outputCost.toFixed6
      totalCost := totalCost.toFixed6
      inputTokens := inputTokens
      outputTokens := outputTokens
      totalTokens := inputTokens + outputTokens
      modelName := some pricing.name
      pricingTier := if pricing.isDynamic then some pr.2 else none }
  | .bare =>
    let inputCost : JsNum := .nan
    let outputCost : JsNum := .nan
    let totalCost := inputCost.add outputCost
    { inputCost := inputCost.toFixed6
      outputCost := outputCost.toFixed6
      totalCost := totalCost.toFixed6
      inputTokens := inputTokens
      outputTokens := outputTokens
      totalTokens := inputTokens + outputTokens
      modelName := none
      pricingTier := none }

/-- C10 counterexample: `"constructor"` is not a key of the pricing table,
yet `getPricing` does not return the Sonnet 4.5 entry for it — the bracket
lookup finds the inherited `Object.prototype.constructor`, a truthy
non-pricing value that `||` keeps — and `calculateCost` on it yields `NaN`
costs and no model name, differing from the Sonnet 4.5 result. -/
theorem getPricing_proto_counterexample :
    MODEL_PRICING "constructor" = JsLookup.inherited "constructor"
    ∧ (¬ ∃ p, MODEL_PRICING "constructor" = JsLookup.own p)
    ∧ getPricing "constructor" = PricingObject.protoMember "constructor"
    ∧ (∀ p, ¬ getPricing "constructor" = PricingObject.entry p)
    ∧ ¬ calculateCost 1000000 2000000 "constructor"
        = calculateCost 1000000 2000000 "claude-sonnet-4-5-20250929"
    ∧ (calculateCost 1000000 2000000 "constructor").totalCost = JsNum.nan
    ∧ (calculateCost 1000000 2000000 "constructor").modelName = none := by
  refine ⟨rfl, ?_, rfl, ?_, by decide, rfl, rfl⟩
  · rintro ⟨p, hp⟩
    exact JsLookup.noConfusion
      (show JsLookup.inherited "constructor" = JsLookup.own p from hp)
  · intro p hp
    exact PricingObject.noConfusion
      (show PricingObject.protoMember "constructor"
          = PricingObject.entry p from hp)

/-- C10 (amended): the bracket lookup has three outcomes, and `getPricing`
is total over all model-identifier strings, but the fallback only covers
`undefined`: a table key returns its entry; a string that is neither a
table key nor an `Object.prototype` member name falls back to the Sonnet
4.5 entry, and `calculateCost` then computes exactly the Sonnet 4.5 cost;
an `Object.prototype` member name returns the inherited member instead of
a pricing entry, and `calculateCost` — still without failing — produces
`NaN` costs and no model name rather than the Sonnet 4.5 result. -/
theorem getPricing_fallback_spec (modelId : String)
    (inputTokens outputTokens : Nat) :
    (∀ p, MODEL_PRICING modelId = JsLookup.own p →
      getPricing modelId = PricingObject.entry p)
    ∧ (MODEL_PRICING modelId = JsLookup.missing →
        getPricing modelId = PricingObject.entry sonnet45Pricing
        ∧ calculateCost inputTokens outputTokens modelId
            = calculateCost inputTokens outputTokens
                "claude-sonnet-4-5-20250929")
    ∧ (∀ n, MODEL_PRICING modelId = JsLookup.inherited n →
        getPricing modelId = PricingObject.protoMember n
        ∧ (calculateCost inputTokens outputTokens modelId).totalCost
            = JsNum.nan
        ∧ (calculateCost inputTokens outputTokens modelId).inputCost
            = JsNum.nan
        ∧ (calculateCost inputTokens outputTokens modelId).modelName = none
        ∧ (calculateCost inputTokens outputTokens modelId).totalTokens
            = inputTokens + outputTokens) := by
  refine ⟨?_, ?_, ?_⟩
  · intro p hp
    simp [getPricing, hp]
  · intro hn
    have hg : getPricing modelId = PricingObject.entry sonnet45Pricing := by
      simp [getPricing, hn]
    have hs : getPricing "claude-sonnet-4-5-20250929"
        = PricingObject.entry sonnet45Pricing := rfl
    refine ⟨hg, ?_⟩
    simp only [calculateCost, getPricingForPromptLength, hg, hs]
  · intro n hn
    have hg : getPricing modelId = PricingObject.protoMember n := by
      simp [getPricing, hn]
    refine ⟨hg, ?_, ?_, ?_, ?_⟩ <;>
      simp [calculateCost, getPricingForPromptLength, hg, JsNum.add,
        JsNum.toFixed6]

theorem getPricing_fallback_spec_witness :
    (MODEL_PRICING "gpt-4" = JsLookup.missing
      ∧ getPricing "gpt-4" = PricingObject.entry sonnet45Pricing
      ∧ calculateCost 300000 1000 "gpt-4"
          = calculateCost 300000 1000 "claude-sonnet-4-5-20250929")
    ∧ (MODEL_PRICING "toString" = JsLookup.inherited "toString"
      ∧ getPricing "toString" = PricingObject.protoMember "toString"
      ∧ (calculateCost 1 2 "toString").totalCost = JsNum.nan)
    ∧ (MODEL_PRICING "claude-opus-4-1-20250805" = JsLookup.own opus41Pricing
      ∧ getPricing "claude-opus-4-1-20250805"
          = PricingObject.entry opus41Pricing) := by
  have h1 := (getPricing_fallback_spec "gpt-4" 300000 1000).2.1 rfl
  have h2 := (getPricing_fallback_spec "toString" 1 2).2.2 "toString" rfl
  have h3 := (getPricing_fallback_spec "claude-opus-4-1-20250805" 0 0).1
    opus41Pricing rfl
  exact ⟨⟨rfl, h1.1, h1.2⟩, ⟨rfl, h2.1, h2.2.1⟩, ⟨rfl, h3⟩⟩

end TranscriptGen
